import Mathlib

/-!
Verification development for the Trade Simulator backend
(`backend/server.py`).

The order-book engine, slippage model and performance tracker are pure
decimal arithmetic on values parsed from decimal-string wire tokens, so
they are embedded over `ℚ` (Python float arithmetic abstracted as exact
rational arithmetic).  The Almgren-Chriss impact model, the maker/taker
logistic model and the fee calculator involve `sqrt`, `tanh`, `log` and
`exp`, so they are embedded over `ℝ`.

Python exceptions are made explicit: an operation that can raise (a float
division with zero denominator, an unparseable numeric token) is modelled
with `Option`/`Except`, and each `try/except` block of the source becomes
a `match` that substitutes the documented fallback value.
-/

/-! ### Decimal-string parsing (Python `float(...)` on feed tokens) -/

/-- Numeric value of a list of decimal digit characters. -/
def digitsToNat (l : List Char) : ℕ :=
  l.foldl (fun a c => 10 * a + (c.toNat - 48)) 0

/-- Exponent digits: requires a non-empty run of digits consuming the whole
remainder of the token. -/
def parseExpDigits (cs : List Char) : Option ℤ :=
  let p := cs.span Char.isDigit
  if p.1.isEmpty ∨ ¬ p.2.isEmpty then none else some (digitsToNat p.1 : ℤ)

/-- Optionally signed exponent part after the `e`/`E` marker. -/
def parseExpPart (cs : List Char) : Option ℤ :=
  match cs with
  | '+' :: r => parseExpDigits r
  | '-' :: r => (parseExpDigits r).map Neg.neg
  | _ => parseExpDigits cs

/-- Unsigned decimal literal: `digits`, `digits.digits`, `.digits`,
optionally followed by an exponent; at least one mantissa digit is
required and the whole token must be consumed. -/
def parseUnsigned (cs : List Char) : Option ℚ :=
  let ipr := cs.span Char.isDigit
  let fpr := match ipr.2 with
    | '.' :: r => r.span Char.isDigit
    | _ => ([], ipr.2)
  if ipr.1.isEmpty ∧ fpr.1.isEmpty then none
  else
    let mant : ℚ := (digitsToNat ipr.1 : ℚ) + (digitsToNat fpr.1 : ℚ) / (10 : ℚ) ^ fpr.1.length
    match fpr.2 with
    | [] => some mant
    | 'e' :: r => (parseExpPart r).map (fun e => mant * (10 : ℚ) ^ e)
    | 'E' :: r => (parseExpPart r).map (fun e => mant * (10 : ℚ) ^ e)
    | _ => none

/-- Python `float(s)` on a decimal-string token: surrounding whitespace is
stripped, an optional sign precedes the unsigned literal.  Returns `none`
where `float(...)` raises `ValueError`. -/
def parseFloat (s : String) : Option ℚ :=
  let cs := ((s.toList.dropWhile Char.isWhitespace).reverse.dropWhile Char.isWhitespace).reverse
  match cs with
  | '+' :: rest => parseUnsigned rest
  | '-' :: rest => (parseUnsigned rest).map Neg.neg
  | _ => parseUnsigned cs

/-! ### OrderBook (`OrderBook.__init__` / `OrderBook.update`) -/

/-- A raw feed record: `timestamp`, and the two sides as lists of
`[price, size]` string pairs (the wire encodes numbers as strings). -/
structure RawRecord where
  timestamp : String
  asks : List (String × String)
  bids : List (String × String)

/-- The mutable state of the Python `OrderBook` object. -/
structure OrderBook where
  exchange : String
  symbol : String
  timestamp : String
  asks : List (ℚ × ℚ)
  bids : List (ℚ × ℚ)
  mid_price : ℚ
  spread_pct : ℚ
  ask_depth : ℚ
  bid_depth : ℚ
  last_update_time : ℚ
deriving DecidableEq

/-- The freshly constructed book: empty sides, zeroed statistics. -/
def initialOrderBook (exchange symbol : String) : OrderBook :=
  ⟨exchange, symbol, "", [], [], 0, 0, 0, 0, 0⟩

/-- `float(price), float(size)` on one level; `none` if either token is
unparseable. -/
def parseLevel (p : String × String) : Option (ℚ × ℚ) :=
  match parseFloat p.1, parseFloat p.2 with
  | some a, some b => some (a, b)
  | _, _ => none

/-- The list comprehension `[(float(p), float(s)) for p, s in side]`: the
whole list, or `none` as soon as any token fails to parse. -/
def parseLevels : List (String × String) → Option (List (ℚ × ℚ))
  | [] => some []
  | p :: rest =>
    match parseLevel p, parseLevels rest with
    | some v, some vs => some (v :: vs)
    | _, _ => none

/-- Stable insertion (ascending by price), mirroring Python's stable sort. -/
def insertAsc (x : ℚ × ℚ) : List (ℚ × ℚ) → List (ℚ × ℚ)
  | [] => [x]
  | y :: ys => if x.1 ≤ y.1 then x :: y :: ys else y :: insertAsc x ys

/-- Stable insertion (descending by price). -/
def insertDesc (x : ℚ × ℚ) : List (ℚ × ℚ) → List (ℚ × ℚ)
  | [] => [x]
  | y :: ys => if y.1 ≤ x.1 then x :: y :: ys else y :: insertDesc x ys

/-- `levels.sort(key=lambda x: x[0])`. -/
def sortAsc (l : List (ℚ × ℚ)) : List (ℚ × ℚ) := l.foldr insertAsc []

/-- `levels.sort(key=lambda x: x[0], reverse=True)`. -/
def sortDesc (l : List (ℚ × ℚ)) : List (ℚ × ℚ) := l.foldr insertDesc []

/-- `sum(size for _, size in levels[:10])`. -/
def depthSum (l : List (ℚ × ℚ)) : ℚ := ((l.take 10).map Prod.snd).sum

/-- Final (exception-free) tail of `OrderBook.update`: depth figures and
the wall-clock stamp, then `return True`. -/
def finishUpdate (now : ℚ) (ob : OrderBook) : Bool × OrderBook :=
  (true, { ob with
    ask_depth := depthSum ob.asks,
    bid_depth := depthSum ob.bids,
    last_update_time := now })

/-- `OrderBook.update(data)`.  The Python body mutates `self` field by
field inside a `try` block; an exception leaves the fields assigned so far
in place and returns `False`.  The mutation order of the source is kept:
`timestamp`, then the parsed `asks`, then the parsed `bids`, the in-place
sorts, `mid_price`, `spread_pct` (a `ZeroDivisionError` when
`mid_price == 0` with both sides non-empty), the depths, and
`last_update_time` (`time.time()`, threaded as the `now` argument). -/
def update (now : ℚ) (ob : OrderBook) (data : RawRecord) : Bool × OrderBook :=
  let ob1 := { ob with timestamp := data.timestamp }
  match parseLevels data.asks with
  | none => (false, ob1)
  | some asksP =>
    let ob2 := { ob1 with asks := asksP }
    match parseLevels data.bids with
    | none => (false, ob2)
    | some bidsP =>
      let sA := sortAsc asksP
      let sB := sortDesc bidsP
      let ob3 := { ob2 with asks := sA, bids := sB }
      match sA, sB with
      | ba :: _, bb :: _ =>
        let mid := (ba.1 + bb.1) / 2
        let ob4 := { ob3 with mid_price := mid }
        if mid = 0 then (false, ob4)
        else finishUpdate now { ob4 with spread_pct := (ba.1 - bb.1) / mid * 100 }
      | _, _ => finishUpdate now ob3

/-! ### SlippageModel (`SlippageModel.estimate`) -/

/-- The VWAP depth-walk loop of `SlippageModel.estimate`: walk the levels,
consuming `remaining` notional greedily; returns `(total_cost, remaining)`.
The fractional-fill branch divides by the level notional
`price * size`, which raises `ZeroDivisionError` when that notional is 0
(possible only when `remaining ≤ 0`). -/
def vwapWalk : List (ℚ × ℚ) → ℚ → ℚ → Except Unit (ℚ × ℚ)
  | [], rem, cost => Except.ok (cost, rem)
  | (price, size) :: rest, rem, cost =>
    let lv := price * size
    if rem ≤ lv then
      if lv = 0 then Except.error ()
      else Except.ok (cost + price * (rem / lv) * rem, 0)
    else vwapWalk rest (rem - lv) (cost + price * size)

/-- Body of the `try` block of `SlippageModel.estimate`; `Except.error`
marks the raise points that the source's `except` clause would catch.
The `quantity > 0` and `mid_price > 0` divisions are guarded in the
source, so they cannot raise; the depth-factor division
`1 / (depth + 1)` can (the depth is a sum of feed sizes, which the engine
never sign-checks). -/
def estimateCore (ob : OrderBook) (quantity : ℚ) (is_buy : Bool) : Except Unit ℚ :=
  let levels := if is_buy then ob.asks else ob.bids
  if levels = [] then Except.ok 0
  else
    match vwapWalk levels quantity 0 with
    | Except.error e => Except.error e
    | Except.ok (cost, rem) =>
      let cost2 := if 0 < rem then cost + ((levels.getLast?).getD (0, 0)).1 * rem * (101/100) else cost
      let eff := if 0 < quantity then cost2 / quantity else 0
      let slip := if 0 < ob.mid_price then
          (if is_buy then eff / ob.mid_price - 1 else 1 - eff / ob.mid_price)
        else 0
      let spread_factor := ob.spread_pct * (1/10)
      let depth := if is_buy then ob.ask_depth else ob.bid_depth
      if depth + 1 = 0 then Except.error ()
      else Except.ok (max (min (slip + spread_factor + 1 / (depth + 1) * (5/100)) (5/100)) 0)

/-- `SlippageModel.estimate`: the `try` body, with the `except` clause
returning the documented fallback `0.001`. -/
def estimate (ob : OrderBook) (quantity : ℚ) (is_buy : Bool) : ℚ :=
  match estimateCore ob quantity is_buy with
  | Except.ok v => v
  | Except.error _ => 1/1000

/-! ### PerformanceTracker -/

/-- State of the Python `PerformanceTracker`. -/
structure PerformanceTracker where
  window_size : ℕ
  processing_times : List ℚ
  update_times : List ℚ
  last_timestamp : ℚ

/-- `PerformanceTracker(window_size)` (fresh, at wall-clock `t0`). -/
def initTracker (w : ℕ) (t0 : ℚ) : PerformanceTracker := ⟨w, [], [], t0⟩

/-- `list.append(x)` followed by `if len(list) > window: list.pop(0)`. -/
def pushWindow (w : ℕ) (l : List ℚ) (x : ℚ) : List ℚ :=
  if w < (l ++ [x]).length then (l ++ [x]).tail else l ++ [x]

/-- `PerformanceTracker.track_processing(duration_ms)`. -/
def track_processing (t : PerformanceTracker) (d : ℚ) : PerformanceTracker :=
  { t with processing_times := pushWindow t.window_size t.processing_times d }

/-- `PerformanceTracker.track_update()`: the interval is the wall-clock
delta to the previous call; the wall clock is threaded as `now`. -/
def track_update (t : PerformanceTracker) (now : ℚ) : PerformanceTracker :=
  { t with
    last_timestamp := now,
    update_times := pushWindow t.window_size t.update_times (now - t.last_timestamp) }

/-- One tracked event: a processing duration or an update at instant `now`. -/
inductive TrackOp where
  | proc (d : ℚ)
  | upd (now : ℚ)
deriving DecidableEq

/-- Run a sequence of tracker calls. -/
def applyOps (t : PerformanceTracker) : List TrackOp → PerformanceTracker
  | [] => t
  | TrackOp.proc d :: rest => applyOps (track_processing t d) rest
  | TrackOp.upd n :: rest => applyOps (track_update t n) rest

/-- The processing durations pushed by a call sequence, in push order. -/
def procVals : List TrackOp → List ℚ
  | [] => []
  | TrackOp.proc d :: rest => d :: procVals rest
  | TrackOp.upd _ :: rest => procVals rest

/-- The update intervals pushed by a call sequence, in push order, given
the tracker's current `last_timestamp`. -/
def updIntervals (last : ℚ) : List TrackOp → List ℚ
  | [] => []
  | TrackOp.proc _ :: rest => updIntervals last rest
  | TrackOp.upd n :: rest => (n - last) :: updIntervals n rest

/-! ### AlmgrenChrissModel (`AlmgrenChrissModel.calculate_impact`) -/

/-- `AlmgrenChrissModel.calculate_impact(sigma, quantity, price,
time_horizon, **kwargs)`, with the three model parameters passed
explicitly (`params.update(kwargs)`; the class defaults are
`gamma=0.1, eta=0.01, epsilon=0.005`).  Decimal literals of the source
are written as the rationals they denote.  The only raise point in the
`try` body is the `temporary_impact` division when `time_horizon == 0`
(numpy's `sqrt`/`tanh` never raise), and the `except` clause returns the
fallback `0.001`.  `price` is accepted and unused, as in the source. -/
noncomputable def calculate_impact (sigma quantity price time_horizon gamma eta epsilon : ℝ) : ℝ :=
  if time_horizon = 0 then 1/1000
  else
    let kappa := Real.sqrt (gamma * sigma * sigma / (2 * eta))
    let tau := time_horizon / max (1/100) quantity
    let temporary_impact := epsilon * quantity / time_horizon
    let permanent_impact := eta * quantity * Real.tanh (kappa * tau)
    min (max (temporary_impact + permanent_impact) 0) (1/10)

/-- `calculate_impact` at the class defaults (no `kwargs` overrides). -/
noncomputable def calculate_impact_default (sigma quantity price time_horizon : ℝ) : ℝ :=
  calculate_impact sigma quantity price time_horizon (1/10) (1/100) (1/200)

/-! ### MakerTakerModel (`MakerTakerModel.predict`) -/

/-- `MakerTakerModel.predict(orderbook, quantity)` with the fixed logistic
weights `intercept=0.2, relative_size=-2.5, spread=1.5, imbalance=-1.0`.
No operation in the body can raise (`max` floors every denominator and
`1 + exp(-logit) ≥ 1`), so the `except` fallback `0.2` is unreachable.
For a non-positive depth ratio, numpy's `log` yields `nan` (with a
warning) where Mathlib's `Real.log` yields `0`; no claim checked here
depends on that case. -/
noncomputable def predict (ob : OrderBook) (quantity : ℝ) : ℝ :=
  let total_depth : ℝ := (ob.ask_depth : ℝ) + (ob.bid_depth : ℝ)
  let relative_size := min (quantity / max total_depth (1/1000)) 1
  let spread_feature := min ((ob.spread_pct : ℝ) / (1/10)) 1
  let depth_ratio := (ob.ask_depth : ℝ) / max (ob.bid_depth : ℝ) (1/100000)
  let imbalance_feature := min (|Real.log depth_ratio| / 3) 1
  let logit := 2/10 + (-(25/10)) * relative_size + (15/10) * spread_feature +
    (-1) * imbalance_feature
  let maker_proportion := 1 / (1 + Real.exp (-logit))
  max (min maker_proportion 1) 0

/-! ### FeeCalculator (`FeeCalculator.calculate`) -/

/-- The fixed OKX fee-tier table `FeeCalculator.fee_tiers`, as
`(maker_rate, taker_rate)` pairs; `none` for an unknown tier name. -/
noncomputable def tier_rates : String → Option (ℝ × ℝ)
  | "VIP0" => some (8/10000, 10/10000)
  | "VIP1" => some (6/10000, 8/10000)
  | "VIP2" => some (4/10000, 6/10000)
  | "VIP3" => some (2/10000, 4/10000)
  | "VIP4" => some (0, 2/10000)
  | "VIP5" => some (-(1/10000), 1/10000)
  | _ => none

/-- `FeeCalculator.calculate(fee_tier, quantity, maker_proportion)`:
`self.fee_tiers.get(fee_tier, self.fee_tiers["VIP0"])`, then the weighted
fee.  Nothing in the `try` body can raise, so the `except` fallback
`quantity * 0.001` is unreachable. -/
noncomputable def calculate (fee_tier : String) (quantity maker_proportion : ℝ) : ℝ :=
  let tier := (tier_rates fee_tier).getD (8/10000, 10/10000)
  quantity * (tier.1 * maker_proportion + tier.2 * (1 - maker_proportion))

/-! ### TradeSimulator (`TradeSimulator.simulate`) -/

/-- The numeric fields of a successful simulation response (the wall-clock
latency and response timestamp of the source are environment inputs with
no numeric content and are omitted). -/
structure CostEstimate where
  expected_slippage : ℝ
  expected_fees : ℝ
  market_impact : ℝ
  net_cost : ℝ
  maker_taker_proportion : ℝ

/-- The successful path of `TradeSimulator.simulate`: the four model
calls in source order and the `net_cost` assembly.  `quantity` and
`volatility` arrive as decimal wire values (`float(params.get(...))`),
hence `ℚ`; the orderbook fields coerce into `ℝ` where they meet the
real-valued models. -/
noncomputable def mkEstimate (ob : OrderBook) (quantity volatility : ℚ) (fee_tier : String) : CostEstimate :=
  let expected_slippage : ℝ := ((estimate ob quantity true : ℚ) : ℝ)
  let maker_taker_proportion := predict ob (quantity : ℝ)
  let expected_fees := calculate fee_tier (quantity : ℝ) maker_taker_proportion
  let market_impact := calculate_impact_default (volatility : ℝ)
    ((quantity : ℝ) / (ob.mid_price : ℝ)) (ob.mid_price : ℝ) 1
  let net_cost := (quantity : ℝ) * expected_slippage + expected_fees +
    (quantity : ℝ) * market_impact
  ⟨expected_slippage, expected_fees, market_impact, net_cost, maker_taker_proportion⟩

/-- `TradeSimulator.simulate`.  `self.orderbook` is `None` until the
first accepted update (`if not self.orderbook: return {"error": ...}`).
Inside the `try` block the only operation that can raise is the
base-unit conversion `quantity / self.orderbook.mid_price` (steps 1-3
before it catch internally or cannot raise), so the orchestrator-level
`except` fires exactly when `mid_price == 0`, and Python reports the
caught `ZeroDivisionError` as "float division by zero". -/
noncomputable def simulate (ob? : Option OrderBook) (quantity volatility : ℚ) (fee_tier : String) : Except String CostEstimate :=
  match ob? with
  | none => Except.error "No orderbook data available"
  | some ob =>
    if ob.mid_price = 0 then Except.error "float division by zero"
    else Except.ok (mkEstimate ob quantity volatility fee_tier)

/-! ### Concrete instances used by witnesses and counterexamples -/

/-- A prior book state with fully populated fields. -/
def cxOb : OrderBook :=
  ⟨"OKX", "BTC-USDT-SWAP", "t1", [(1, 1)], [(1, 1)], 1, 1, 1, 1, 1⟩

/-- A record whose bid side holds an unparseable price token. -/
def cxRec : RawRecord := ⟨"t2", [("101", "1")], [("abc", "2")]⟩

/-- The end-to-end scenario record of the spec: bids
`[[100,1],[99,2]]`, asks `[[101,1],[102,2]]` as string tokens. -/
def e2eRec : RawRecord :=
  ⟨"ts", [("101", "1"), ("102", "2")], [("100", "1"), ("99", "2")]⟩

/-- The book produced by accepting `e2eRec` (fields as computed by
`update`). -/
def e2eOb : OrderBook :=
  ⟨"OKX", "BTC-USDT-SWAP", "ts", [(101, 1), (102, 2)], [(100, 1), (99, 2)],
    201/2, 200/201, 3, 3, 0⟩

/-- A book whose ask side is empty. -/
def obNoAsks : OrderBook :=
  ⟨"OKX", "BTC-USDT-SWAP", "t", [], [(100, 1)], 10, 1, 0, 1, 0⟩

/-- A record with an empty ask side and a parseable bid side. -/
def emptyAskRec : RawRecord := ⟨"t3", [], [("100", "1")]⟩

/-! ### Helper lemmas for the Almgren-Chriss monotonicity analysis -/

/-- `sinh` is convex on `[0, ∞)` (its second derivative is `sinh ≥ 0` there). -/
theorem sinh_convexOn : ConvexOn ℝ (Set.Ici (0:ℝ)) Real.sinh := by
  apply convexOn_of_deriv2_nonneg (convex_Ici 0) Real.continuous_sinh.continuousOn
    Real.differentiable_sinh.differentiableOn
  · rw [Real.deriv_sinh]
    exact Real.differentiable_cosh.differentiableOn
  · intro x hx
    rw [interior_Ici] at hx
    simp only [Function.iterate_succ, Function.iterate_zero, Function.comp_apply, id_eq]
    rw [Real.deriv_sinh, Real.deriv_cosh]
    exact Real.sinh_nonneg_iff.2 hx.le

/-- `sinh x / x` is monotone on `[0, ∞)`, in product form. -/
theorem sinh_ratio (d s : ℝ) (hd : 0 ≤ d) (hds : d ≤ s) :
    s * Real.sinh d ≤ d * Real.sinh s := by
  rcases eq_or_lt_of_le (hd.trans hds) with h | hs
  · have hs0 : s = 0 := h.symm
    have hd0 : d = 0 := le_antisymm (hs0 ▸ hds) hd
    simp [hs0, hd0]
  · have hds1 : d / s ≤ 1 := div_le_one_of_le₀ hds hs.le
    have key := sinh_convexOn.2 Set.left_mem_Ici (Set.mem_Ici.2 (hd.trans hds))
      (show (0:ℝ) ≤ 1 - d/s by linarith)
      (show (0:ℝ) ≤ d/s by positivity)
      (show (1 - d/s) + d/s = 1 by ring)
    have h1 : (1 - d/s) • (0:ℝ) + (d/s) • s = d := by
      field_simp
    rw [h1] at key
    have h2 : Real.sinh d ≤ (1 - d/s) * Real.sinh 0 + (d/s) * Real.sinh s := key
    rw [Real.sinh_zero] at h2
    have h3 : Real.sinh d ≤ (d/s) * Real.sinh s := by linarith
    calc s * Real.sinh d ≤ s * ((d/s) * Real.sinh s) :=
          mul_le_mul_of_nonneg_left h3 hs.le
      _ = d * Real.sinh s := by field_simp

/-- `tanh` is nonnegative on `[0, ∞)`. -/
theorem tanh_nonneg_of_nonneg {x : ℝ} (hx : 0 ≤ x) : 0 ≤ Real.tanh x := by
  rw [Real.tanh_eq_sinh_div_cosh]
  exact div_nonneg (Real.sinh_nonneg_iff.2 hx) (Real.cosh_pos x).le

/-- `tanh x / x` is antitone on `(0, ∞)`, in product form. -/
theorem mul_tanh_comparison {u v : ℝ} (hu : 0 ≤ u) (huv : u ≤ v) :
    u * Real.tanh v ≤ v * Real.tanh u := by
  have key := sinh_ratio (v - u) (v + u) (by linarith) (by linarith)
  rw [Real.sinh_sub, Real.sinh_add] at key
  have hcu := Real.cosh_pos u
  have hcv := Real.cosh_pos v
  rw [Real.tanh_eq_sinh_div_cosh, Real.tanh_eq_sinh_div_cosh,
    ← mul_div_assoc, ← mul_div_assoc, div_le_div_iff₀ hcv hcu]
  nlinarith [key]

/-- `x ↦ x * tanh (c / x)` is monotone on `(0, ∞)` for `c ≥ 0`. -/
theorem mul_tanh_div_le {a b c : ℝ} (ha : 0 < a) (hab : a ≤ b) (hc : 0 ≤ c) :
    a * Real.tanh (c / a) ≤ b * Real.tanh (c / b) := by
  have hb : 0 < b := lt_of_lt_of_le ha hab
  rcases eq_or_lt_of_le hc with h0 | hcpos
  · rw [← h0, zero_div, zero_div, Real.tanh_zero, mul_zero, mul_zero]
  · have hba : c / b ≤ c / a := by gcongr
    have hmono := mul_tanh_comparison (show 0 ≤ c / b by positivity) hba
    calc a * Real.tanh (c / a) = ((c / b) * Real.tanh (c / a)) * (a * b / c) := by
          field_simp
          ring
      _ ≤ ((c / a) * Real.tanh (c / b)) * (a * b / c) :=
          mul_le_mul_of_nonneg_right hmono (by positivity)
      _ = b * Real.tanh (c / b) := by
          field_simp
          ring

/-- Monotonicity of the permanent-impact factor, with the `max (1/100)`
floor of the source's `tau`. -/
theorem mul_tanh_max_aux {c q1 q2 : ℝ} (hc : 0 ≤ c) (h1 : 0 ≤ q1) (h12 : q1 ≤ q2) :
    q1 * Real.tanh (c / max (1/100) q1) ≤ q2 * Real.tanh (c / max (1/100) q2) := by
  rcases le_or_lt q2 (1/100) with hq2 | hq2
  · rw [max_eq_left (h12.trans hq2), max_eq_left hq2]
    exact mul_le_mul_of_nonneg_right h12 (tanh_nonneg_of_nonneg (by positivity))
  · rw [max_eq_right hq2.le]
    rcases le_or_lt q1 (1/100) with hq1 | hq1
    · rw [max_eq_left hq1]
      calc q1 * Real.tanh (c / (1/100)) ≤ (1/100) * Real.tanh (c / (1/100)) :=
            mul_le_mul_of_nonneg_right hq1 (tanh_nonneg_of_nonneg (by positivity))
        _ ≤ q2 * Real.tanh (c / q2) := mul_tanh_div_le (by norm_num) hq2.le hc
    · rw [max_eq_right hq1.le]
      exact mul_tanh_div_le (lt_of_lt_of_le (by norm_num) hq1.le) h12 hc

/-- The previous lemma in the exact `kappa * tau` shape of the source. -/
theorem mul_tanh_max_le {k T q1 q2 : ℝ} (hk : 0 ≤ k) (hT : 0 ≤ T) (h1 : 0 ≤ q1) (h12 : q1 ≤ q2) :
    q1 * Real.tanh (k * (T / max (1/100) q1)) ≤ q2 * Real.tanh (k * (T / max (1/100) q2)) := by
  have e1 : k * (T / max (1/100) q1) = (k * T) / max (1/100) q1 :=
    (mul_div_assoc k T (max (1/100) q1)).symm
  have e2 : k * (T / max (1/100) q2) = (k * T) / max (1/100) q2 :=
    (mul_div_assoc k T (max (1/100) q2)).symm
  rw [e1, e2]
  exact mul_tanh_max_aux (mul_nonneg hk hT) h1 h12

/-- C4: for fixed `sigma ≥ 0`, `price`, and `time_horizon > 0`, and all
quantities `0 ≤ q1 ≤ q2`, `AlmgrenChrissModel.calculate_impact` with the
default parameters satisfies `impact(q1) ≤ impact(q2)`, and its result
(for any arguments, the exception fallback included) lies in `[0, 0.1]`. -/
theorem impact_monotone_and_bounded (sigma price T q1 q2 : ℝ)
    (hs : 0 ≤ sigma) (hT : 0 < T) (h1 : 0 ≤ q1) (h12 : q1 ≤ q2) :
    calculate_impact_default sigma q1 price T ≤ calculate_impact_default sigma q2 price T ∧
    ∀ s q p t : ℝ, 0 ≤ calculate_impact_default s q p t ∧
      calculate_impact_default s q p t ≤ 1/10 := by
  constructor
  · unfold calculate_impact_default calculate_impact
    rw [if_neg hT.ne', if_neg hT.ne']
    apply min_le_min _ le_rfl
    apply max_le_max _ le_rfl
    apply add_le_add
    · gcongr
    · have key := mul_tanh_max_le
        (Real.sqrt_nonneg ((1/10) * sigma * sigma / (2 * (1/100)))) hT.le h1 h12
      linarith [key]
  · intro s q p t
    unfold calculate_impact_default calculate_impact
    split
    · norm_num
    · exact ⟨le_min (le_max_right _ _) (by norm_num), min_le_right _ _⟩

/-- Witness for C4 at `sigma=1`, `price=50`, `T=1`, `q1=0`, `q2=1`. -/
theorem impact_monotone_and_bounded_witness :
    calculate_impact_default 1 0 50 1 ≤ calculate_impact_default 1 1 50 1 ∧
    0 ≤ calculate_impact_default 1 2 50 1 :=
  ⟨(impact_monotone_and_bounded 1 50 1 0 1 (by norm_num) (by norm_num)
      (by norm_num) (by norm_num)).1,
   ((impact_monotone_and_bounded 1 50 1 0 1 (by norm_num) (by norm_num)
      (by norm_num) (by norm_num)).2 1 2 50 1).1⟩

/-! ### Claim C1 (order-book rejection atomicity) -/

/-- C1 counterexample: a record whose bid side holds the unparseable
token "abc" is rejected, yet `timestamp` and `asks` are not what they
were before the call, refuting "every field of the stored state is
exactly what it was before the call". -/
theorem update_atomicity_counterexample :
    (update 7 cxOb cxRec).1 = false ∧
    (update 7 cxOb cxRec).2.timestamp ≠ cxOb.timestamp ∧
    (update 7 cxOb cxRec).2.asks ≠ cxOb.asks := by
  refine ⟨?_, ?_, ?_⟩ <;> with_unfolding_all decide

/-- C1 (amended): on a record with an unparseable price or size token,
`OrderBook.update` returns `False` and leaves `mid_price`, `spread_pct`,
`ask_depth`, `bid_depth`, `last_update_time` and `bids` unchanged, but
`timestamp` is overwritten with the record's timestamp, and `asks` is
overwritten with the parsed (still unsorted) ask levels whenever the ask
side itself parsed (i.e. the failure was in the bid side). -/
theorem update_rejects_unparseable (ob : OrderBook) (rec : RawRecord) (now : ℚ)
    (h : parseLevels rec.asks = none ∨ parseLevels rec.bids = none) :
    (update now ob rec).1 = false ∧
    (update now ob rec).2.mid_price = ob.mid_price ∧
    (update now ob rec).2.spread_pct = ob.spread_pct ∧
    (update now ob rec).2.ask_depth = ob.ask_depth ∧
    (update now ob rec).2.bid_depth = ob.bid_depth ∧
    (update now ob rec).2.last_update_time = ob.last_update_time ∧
    (update now ob rec).2.bids = ob.bids ∧
    (update now ob rec).2.timestamp = rec.timestamp ∧
    (parseLevels rec.asks = none → (update now ob rec).2.asks = ob.asks) ∧
    (∀ as, parseLevels rec.asks = some as → (update now ob rec).2.asks = as) := by
  cases hA : parseLevels rec.asks with
  | none => simp [update, hA]
  | some as =>
    have hB : parseLevels rec.bids = none := by
      rcases h with h | h
      · rw [hA] at h
        exact absurd h (by simp)
      · exact h
    simp [update, hA, hB]

/-- Witness for C1 (amended) on the concrete rejected record `cxRec`. -/
theorem update_rejects_unparseable_witness :
    (update 7 cxOb cxRec).1 = false ∧
    (update 7 cxOb cxRec).2.mid_price = cxOb.mid_price :=
  ⟨(update_rejects_unparseable cxOb cxRec 7 (Or.inr (by with_unfolding_all rfl))).1,
   (update_rejects_unparseable cxOb cxRec 7 (Or.inr (by with_unfolding_all rfl))).2.1⟩

/-! ### Claim C2 (end-to-end book scenario) -/

/-- C2 counterexample: on the spec's scenario book the accepted update
yields `spread_pct = 200/201 ≈ 0.995`, which is not approximately
`0.4975` (it is more than `0.49` away), refuting the claimed spread. -/
theorem spread_not_half_counterexample :
    (update 7 cxOb e2eRec).1 = true ∧
    (update 7 cxOb e2eRec).2.spread_pct = 200/201 ∧
    49/100 < |(update 7 cxOb e2eRec).2.spread_pct - 4975/10000| := by
  have h : (update 7 cxOb e2eRec).2.spread_pct = 200/201 := by
    with_unfolding_all rfl
  refine ⟨by with_unfolding_all rfl, h, ?_⟩
  rw [h, abs_of_nonneg (by norm_num : (0:ℚ) ≤ 200/201 - 4975/10000)]
  norm_num

/-- C2 (amended): after an accepted update with bids
`[[100,1],[99,2]]` and asks `[[101,1],[102,2]]` (numeric-string tokens),
the snapshot has `mid_price = 100.5`, `ask_depth = 3`, `bid_depth = 3`,
and `spread_pct = 200/201 ≈ 0.995` (the code divides the `1`-unit spread
by the mid price `100.5`, not by `201`), for any prior state. -/
theorem update_e2e_book (ob : OrderBook) (now : ℚ) :
    (update now ob e2eRec).1 = true ∧
    (update now ob e2eRec).2.mid_price = 201/2 ∧
    (update now ob e2eRec).2.spread_pct = 200/201 ∧
    |(update now ob e2eRec).2.spread_pct - 995/1000| < 1/100 ∧
    (update now ob e2eRec).2.ask_depth = 3 ∧
    (update now ob e2eRec).2.bid_depth = 3 := by
  have h : (update now ob e2eRec).2.spread_pct = 200/201 := by
    with_unfolding_all rfl
  refine ⟨by with_unfolding_all rfl, by with_unfolding_all rfl, h, ?_,
    by with_unfolding_all rfl, by with_unfolding_all rfl⟩
  rw [h, abs_of_nonneg (by norm_num : (0:ℚ) ≤ 200/201 - 995/1000)]
  norm_num

/-! ### Claim C3 (empty side retains mid price and spread) -/

/-- C3: an accepted update whose record has an empty ask side or an empty
bid side keeps the previous `mid_price` and `spread_pct` (the source only
recomputes them when both sorted sides are non-empty), while `timestamp`,
`asks`, `bids`, the depths and `last_update_time` are replaced from the
new record.  Parse success of both sides plus one empty raw side is
exactly acceptance of such a record. -/
theorem update_empty_side_keeps_mid (ob : OrderBook) (rec : RawRecord) (now : ℚ)
    (as bs : List (ℚ × ℚ))
    (hA : parseLevels rec.asks = some as) (hB : parseLevels rec.bids = some bs)
    (hE : rec.asks = [] ∨ rec.bids = []) :
    update now ob rec =
      (true, { ob with
        timestamp := rec.timestamp,
        asks := sortAsc as,
        bids := sortDesc bs,
        ask_depth := depthSum (sortAsc as),
        bid_depth := depthSum (sortDesc bs),
        last_update_time := now }) := by
  rcases hE with hE | hE
  · have hA' : parseLevels ([] : List (String × String)) = some as := hE ▸ hA
    have has : as = [] := by simpa [parseLevels] using hA'.symm
    subst has
    cases hsb : sortDesc bs with
    | nil => simp [update, hA, hB, sortAsc, finishUpdate, hsb]
    | cons b tl => simp [update, hA, hB, sortAsc, finishUpdate, hsb]
  · have hB' : parseLevels ([] : List (String × String)) = some bs := hE ▸ hB
    have hbs : bs = [] := by simpa [parseLevels] using hB'.symm
    subst hbs
    cases hsa : sortAsc as with
    | nil => simp [update, hA, hB, sortDesc, finishUpdate, hsa]
    | cons a tl => simp [update, hA, hB, sortDesc, finishUpdate, hsa]

/-- Witness for C3 on the concrete record with an empty ask side. -/
theorem update_empty_side_keeps_mid_witness :
    update 7 cxOb emptyAskRec =
      (true, { cxOb with
        timestamp := emptyAskRec.timestamp,
        asks := sortAsc [],
        bids := sortDesc [(100, 1)],
        ask_depth := depthSum (sortAsc []),
        bid_depth := depthSum (sortDesc [(100, 1)]),
        last_update_time := 7 }) :=
  update_empty_side_keeps_mid cxOb emptyAskRec 7 [] [(100, 1)]
    (by with_unfolding_all rfl) (by with_unfolding_all rfl) (Or.inl rfl)

/-! ### Claim C5 (slippage bounds) -/

/-- C5: `SlippageModel.estimate` returns exactly 0 when the selected
side's level list (asks when buying, bids when selling) is empty, and a
value in `[0, 0.05]` when the side is non-empty — whether through the
final clamp `max(min(·, 0.05), 0)` or through the internal-failure
fallback `0.001`, which also lies in the interval. -/
theorem slippage_empty_zero_else_bounded (ob : OrderBook) (q : ℚ) (b : Bool) :
    ((if b then ob.asks else ob.bids) = [] → estimate ob q b = 0) ∧
    ((if b then ob.asks else ob.bids) ≠ [] →
      0 ≤ estimate ob q b ∧ estimate ob q b ≤ 5/100) := by
  constructor
  · intro hL
    simp [estimate, estimateCore, hL]
  · intro hL
    have hcore : ∀ v, estimateCore ob q b = Except.ok v → 0 ≤ v ∧ v ≤ 5/100 := by
      intro v hv
      rw [estimateCore, if_neg hL] at hv
      rcases hw : vwapWalk (if b then ob.asks else ob.bids) q 0 with e | pr
      · rw [hw] at hv
        simp at hv
      · rw [hw] at hv
        obtain ⟨cost, rem⟩ := pr
        simp only at hv
        by_cases hd : (if b = true then ob.ask_depth else ob.bid_depth) + 1 = 0
        · rw [if_pos hd] at hv
          simp at hv
        · rw [if_neg hd] at hv
          have hveq := Except.ok.inj hv
          rw [← hveq]
          exact ⟨le_max_right _ _, max_le (min_le_right _ _) (by norm_num)⟩
    rw [estimate]
    rcases hc : estimateCore ob q b with e | v
    · norm_num
    · exact hcore v hc

/-- Witness for C5: an empty ask side gives 0; the populated scenario
book gives a nonnegative slippage. -/
theorem slippage_empty_zero_else_bounded_witness :
    estimate obNoAsks 100 true = 0 ∧ 0 ≤ estimate e2eOb 100 true :=
  ⟨(slippage_empty_zero_else_bounded obNoAsks 100 true).1 rfl,
   ((slippage_empty_zero_else_bounded e2eOb 100 true).2 (by simp [e2eOb])).1⟩

/-! ### Claim C6 (fee linearity) -/

/-- C6: for every tier in the fee table, `FeeCalculator.calculate`
returns exactly `quantity * (maker_rate * p + taker_rate * (1 - p))`;
in particular `p = 1` gives `quantity * maker_rate`, `p = 0` gives
`quantity * taker_rate`, and VIP5's negative maker rate is not clamped,
so the fee is negative for positive quantity at `p = 1`. -/
theorem fee_calculate_linear (tier : String) (mr tr q p : ℝ)
    (h : tier_rates tier = some (mr, tr)) :
    calculate tier q p = q * (mr * p + tr * (1 - p)) ∧
    calculate tier q 1 = q * mr ∧
    calculate tier q 0 = q * tr ∧
    (0 < q → calculate "VIP5" q 1 < 0) := by
  refine ⟨?_, ?_, ?_, ?_⟩
  · simp [calculate, h]
  · simp [calculate, h]
  · simp [calculate, h]
  · intro hq
    simp only [calculate, tier_rates, Option.getD_some]
    nlinarith

/-- Witness for C6 at tier VIP0, quantity 100, maker probability 1. -/
theorem fee_calculate_linear_witness :
    tier_rates "VIP0" = some (8/10000, 10/10000) ∧
    calculate "VIP0" 100 1 = 100 * (8/10000) :=
  ⟨rfl, (fee_calculate_linear "VIP0" (8/10000) (10/10000) 100 1 rfl).2.1⟩

/-! ### Claim C7 (no-data error) -/

/-- C7: `simulate` with no installed snapshot returns the explicit
error payload "No orderbook data available", for every argument tuple. -/
theorem simulate_no_orderbook (q vol : ℚ) (tier : String) :
    simulate none q vol tier = Except.error "No orderbook data available" := rfl

/-! ### Claim C8 (net-cost assembly) -/

/-- C8: whenever `simulate` returns a successful estimate, its
`net_cost` equals `quantity * expected_slippage + expected_fees +
quantity * market_impact` exactly, and the other fields are precisely the
values of the slippage, maker/taker, fee and impact models on that same
call's inputs. -/
theorem simulate_net_cost (ob : OrderBook) (q vol : ℚ) (tier : String) (est : CostEstimate)
    (h : simulate (some ob) q vol tier = Except.ok est) :
    est.net_cost = (q : ℝ) * est.expected_slippage + est.expected_fees +
      (q : ℝ) * est.market_impact ∧
    est.expected_slippage = ((estimate ob q true : ℚ) : ℝ) ∧
    est.maker_taker_proportion = predict ob (q : ℝ) ∧
    est.expected_fees = calculate tier (q : ℝ) (predict ob (q : ℝ)) ∧
    est.market_impact = calculate_impact_default (vol : ℝ)
      ((q : ℝ) / (ob.mid_price : ℝ)) (ob.mid_price : ℝ) 1 := by
  rw [simulate] at h
  by_cases hmid : ob.mid_price = 0
  · rw [if_pos hmid] at h
    exact absurd h (by simp)
  · rw [if_neg hmid] at h
    have hest : est = mkEstimate ob q vol tier := by
      cases h
      rfl
    subst hest
    exact ⟨rfl, rfl, rfl, rfl, rfl⟩

/-- Witness for C8 on the populated scenario book. -/
theorem simulate_net_cost_witness :
    simulate (some e2eOb) 100 (1/50) "VIP0" =
      Except.ok (mkEstimate e2eOb 100 (1/50) "VIP0") ∧
    (mkEstimate e2eOb 100 (1/50) "VIP0").net_cost =
      (100 : ℝ) * (mkEstimate e2eOb 100 (1/50) "VIP0").expected_slippage +
      (mkEstimate e2eOb 100 (1/50) "VIP0").expected_fees +
      (100 : ℝ) * (mkEstimate e2eOb 100 (1/50) "VIP0").market_impact := by
  have h : simulate (some e2eOb) 100 (1/50) "VIP0" =
      Except.ok (mkEstimate e2eOb 100 (1/50) "VIP0") := by
    rw [simulate]
    rw [if_neg (by norm_num [e2eOb] : ¬ e2eOb.mid_price = 0)]
  exact ⟨h, (simulate_net_cost e2eOb 100 (1/50) "VIP0" _ h).1⟩

/-! ### Claim C10 (zero mid price makes simulate fail) -/

/-- C10: with an installed snapshot whose `mid_price` is 0 (as after a
first accepted update with an empty side), `simulate` returns an error
payload — the base-unit conversion `quantity / mid_price` raises and the
orchestrator's catch-all reports it — never a `CostEstimate`. -/
theorem simulate_zero_mid_errors (ob : OrderBook) (q vol : ℚ) (tier : String)
    (hmid : ob.mid_price = 0) (hq : 0 < q) :
    simulate (some ob) q vol tier = Except.error "float division by zero" := by
  simp [simulate, hmid]

/-- Witness for C10 on the freshly constructed book (mid price 0). -/
theorem simulate_zero_mid_errors_witness :
    simulate (some (initialOrderBook "OKX" "BTC-USDT-SWAP")) 100 (1/50) "VIP0" =
      Except.error "float division by zero" :=
  simulate_zero_mid_errors (initialOrderBook "OKX" "BTC-USDT-SWAP") 100 (1/50) "VIP0"
    rfl (by norm_num)

/-! ### Claim C9 (performance window retention) -/

/-- Folding the push-and-evict step keeps exactly the window-size-many
most recent samples: the fold equals the pushed sequence with its oldest
overflow dropped. -/
theorem pushWindow_foldl (w : ℕ) (s : List ℚ) : ∀ init : List ℚ, init.length ≤ w →
    s.foldl (pushWindow w) init = (init ++ s).drop (init.length + s.length - w) := by
  induction s with
  | nil =>
    intro init h
    simp [Nat.sub_eq_zero_of_le h]
  | cons d rest ih =>
    intro init h
    rw [List.foldl_cons]
    by_cases hlen : w < (init ++ [d]).length
    · have hw : init.length = w := by
        simp [List.length_append] at hlen
        omega
      have hpw : pushWindow w init d = (init ++ [d]).tail := by
        rw [pushWindow, if_pos hlen]
      have hlen2 : (pushWindow w init d).length ≤ w := by
        rw [hpw, List.length_tail, List.length_append]
        simp
        omega
      rw [ih _ hlen2, hpw]
      have hne : init ++ [d] ≠ [] := by simp
      rw [← List.tail_append_of_ne_nil hne, List.drop_tail, List.append_assoc,
        List.singleton_append]
      have hidx : (init ++ [d]).tail.length + rest.length - w + 1 =
          init.length + (d :: rest).length - w := by
        simp only [List.length_tail, List.length_append, List.length_cons,
          List.length_singleton, List.length_nil]
        omega
      rw [hidx]
    · have hpw : pushWindow w init d = init ++ [d] := by
        rw [pushWindow, if_neg hlen]
      have hlen2 : (pushWindow w init d).length ≤ w := by
        rw [hpw]
        simp at hlen ⊢
        omega
      rw [ih _ hlen2, hpw, List.append_assoc, List.singleton_append]
      have hidx : (init ++ [d]).length + rest.length - w =
          init.length + (d :: rest).length - w := by
        simp only [List.length_append, List.length_cons, List.length_singleton,
          List.length_nil]
        omega
      rw [hidx]

/-- The processing-times list after a call sequence is the fold of the
push step over the sequence's processing samples. -/
theorem applyOps_processing (ops : List TrackOp) : ∀ t : PerformanceTracker,
    (applyOps t ops).processing_times =
      (procVals ops).foldl (pushWindow t.window_size) t.processing_times := by
  induction ops with
  | nil => intro t; rfl
  | cons op rest ih =>
    intro t
    cases op with
    | proc d =>
      simp only [applyOps, procVals, List.foldl_cons, ih]
      rfl
    | upd n =>
      simp only [applyOps, procVals, ih]
      rfl

/-- The update-times list after a call sequence is the fold of the push
step over the sequence's computed intervals. -/
theorem applyOps_update (ops : List TrackOp) : ∀ t : PerformanceTracker,
    (applyOps t ops).update_times =
      (updIntervals t.last_timestamp ops).foldl (pushWindow t.window_size) t.update_times := by
  induction ops with
  | nil => intro t; rfl
  | cons op rest ih =>
    intro t
    cases op with
    | proc d =>
      simp only [applyOps, updIntervals, ih]
      rfl
    | upd n =>
      simp only [applyOps, updIntervals, List.foldl_cons, ih]
      rfl

/-- C9: after any sequence of `track_processing` / `track_update` calls
on a fresh tracker with window size `w`, each rolling list holds exactly
the `w` most recent pushed samples in push order (all of them when fewer
than `w` were pushed), and in particular never more than `w` entries. -/
theorem tracker_window_retention (w : ℕ) (t0 : ℚ) (ops : List TrackOp) :
    (applyOps (initTracker w t0) ops).processing_times =
      (procVals ops).drop ((procVals ops).length - w) ∧
    (applyOps (initTracker w t0) ops).update_times =
      (updIntervals t0 ops).drop ((updIntervals t0 ops).length - w) ∧
    (applyOps (initTracker w t0) ops).processing_times.length ≤ w ∧
    (applyOps (initTracker w t0) ops).update_times.length ≤ w := by
  have h1 := applyOps_processing ops (initTracker w t0)
  have h2 := applyOps_update ops (initTracker w t0)
  rw [show (initTracker w t0).processing_times = [] from rfl,
    show (initTracker w t0).window_size = w from rfl,
    pushWindow_foldl w (procVals ops) [] (by simp)] at h1
  rw [show (initTracker w t0).update_times = [] from rfl,
    show (initTracker w t0).window_size = w from rfl,
    show (initTracker w t0).last_timestamp = t0 from rfl,
    pushWindow_foldl w (updIntervals t0 ops) [] (by simp)] at h2
  simp only [List.nil_append, List.length_nil, Nat.zero_add] at h1 h2
  refine ⟨h1, h2, ?_, ?_⟩
  · rw [h1, List.length_drop]
    omega
  · rw [h2, List.length_drop]
    omega
